import Mathlib

set_option maxHeartbeats 1000000

/-!
Shallow embedding of `src/oop.py`, an in-memory task-tracking service built
on three repositories (tasks, projects, users) stored in Python dicts keyed
by UUID, with an orchestration layer enforcing the task→project reference
check and the cascading delete of a project's tasks.

Modelling conventions:
* `uuid.UUID` values are modelled as natural numbers; the program only ever
  compares them for equality.
* A Python `dict[UUID, T]` is modelled as an association list
  `List (UUID × T)` with insertion-order semantics: assignment to an existing
  key replaces the entry in place, assignment to a fresh key appends, and
  `.values()` iterates entries in list order.  Keys of reachable stores are
  unique, matching real dicts.
* A raised exception is modelled by the `Except.error` component of the
  result, and every handler returns the store state as mutated up to the
  point of the raise, mirroring Python exceptions over mutable state.
-/

namespace Oop

/-- Identifiers (`uuid.UUID` in the source), modelled as naturals. -/
abbrev UUID := Nat

/-- `class TaskStatus(str, Enum)`: TODO, IN_PROGRESS, DONE. -/
inductive TaskStatus where
  | todo
  | in_progress
  | done
deriving DecidableEq, Repr

/-- The `Task` pydantic model: id, title, optional description, status
(default TODO), optional project_id. -/
structure Task where
  id : UUID
  title : String
  description : Option String := none
  status : TaskStatus := TaskStatus.todo
  project_id : Option UUID := none
deriving DecidableEq, Repr

/-- The `Project` pydantic model: id, name, optional description. -/
structure Project where
  id : UUID
  name : String
  description : Option String := none
deriving DecidableEq, Repr

/-- The `User` pydantic model: id, username, email. -/
structure User where
  id : UUID
  username : String
  email : String
deriving DecidableEq, Repr

/-- Python `dict.get(k)`: the value at the first matching key, if any. -/
def dictGet {α : Type} : List (UUID × α) → UUID → Option α
  | [], _ => none
  | (k, v) :: d, k' => if k = k' then some v else dictGet d k'

/-- Python `k in dict`. -/
def dictContains {α : Type} (d : List (UUID × α)) (k : UUID) : Bool :=
  (dictGet d k).isSome

/-- Python `dict[k] = v`: replace in place when the key is present
(dicts keep the key's insertion position), append otherwise. -/
def dictSet {α : Type} : List (UUID × α) → UUID → α → List (UUID × α)
  | [], k, v => [(k, v)]
  | (k', v') :: d, k, v =>
    if k' = k then (k, v) :: d else (k', v') :: dictSet d k v

/-- Python `del dict[k]`: drop the first entry with the given key. -/
def dictDel {α : Type} : List (UUID × α) → UUID → List (UUID × α)
  | [], _ => []
  | (k', v') :: d, k => if k' = k then d else (k', v') :: dictDel d k

/-- Errors raised by the program: `HTTPException(status_code, detail)` from
the handlers, and the repositories' bare `ValueError(msg)` (which, uncaught,
would surface as a server error rather than an HTTP client error). -/
inductive AppError where
  | httpException (status_code : Nat) (detail : String)
  | valueError (msg : String)
deriving DecidableEq, Repr

/-- The `TaskRepository._tasks` dict. -/
abbrev TaskStore := List (UUID × Task)

/-- The `ProjectRepository._projects` dict. -/
abbrev ProjectStore := List (UUID × Project)

/-- The `UserRepository._users` dict. -/
abbrev UserStore := List (UUID × User)

/-- `TaskRepository.get_all`: `list(self._tasks.values())`. -/
def TaskRepository.get_all (r : TaskStore) : List Task :=
  r.map Prod.snd

/-- `TaskRepository.get_by_id`: `self._tasks.get(task_id)`. -/
def TaskRepository.get_by_id (r : TaskStore) (task_id : UUID) : Option Task :=
  dictGet r task_id

/-- `TaskRepository.create`: `self._tasks[task.id] = task; return task`. -/
def TaskRepository.create (r : TaskStore) (task : Task) : TaskStore × Task :=
  (dictSet r task.id task, task)

/-- `TaskRepository.update`: raises `ValueError` when `task.id` is absent,
otherwise `self._tasks[task.id] = task; return task`. -/
def TaskRepository.update (r : TaskStore) (task : Task) :
    Except AppError (TaskStore × Task) :=
  if ¬ (dictContains r task.id = true) then
    .error (.valueError "Task not found")
  else
    .ok (dictSet r task.id task, task)

/-- `TaskRepository.delete`: raises `ValueError` when `task_id` is absent,
otherwise `del self._tasks[task_id]`. -/
def TaskRepository.delete (r : TaskStore) (task_id : UUID) :
    Except AppError TaskStore :=
  if ¬ (dictContains r task_id = true) then
    .error (.valueError "Task not found")
  else
    .ok (dictDel r task_id)

/-- `TaskRepository.get_by_project`: the tasks whose `project_id` equals the
argument (a `None` project_id never equals a UUID in Python). -/
def TaskRepository.get_by_project (r : TaskStore) (project_id : UUID) :
    List Task :=
  (r.map Prod.snd).filter (fun task => task.project_id == some project_id)

/-- `ProjectRepository.get_all`. -/
def ProjectRepository.get_all (r : ProjectStore) : List Project :=
  r.map Prod.snd

/-- `ProjectRepository.get_by_id`. -/
def ProjectRepository.get_by_id (r : ProjectStore) (project_id : UUID) :
    Option Project :=
  dictGet r project_id

/-- `ProjectRepository.create`. -/
def ProjectRepository.create (r : ProjectStore) (project : Project) :
    ProjectStore × Project :=
  (dictSet r project.id project, project)

/-- `ProjectRepository.update`. -/
def ProjectRepository.update (r : ProjectStore) (project : Project) :
    Except AppError (ProjectStore × Project) :=
  if ¬ (dictContains r project.id = true) then
    .error (.valueError "Project not found")
  else
    .ok (dictSet r project.id project, project)

/-- `ProjectRepository.delete`. -/
def ProjectRepository.delete (r : ProjectStore) (project_id : UUID) :
    Except AppError ProjectStore :=
  if ¬ (dictContains r project_id = true) then
    .error (.valueError "Project not found")
  else
    .ok (dictDel r project_id)

/-- `UserRepository.get_all`. -/
def UserRepository.get_all (r : UserStore) : List User :=
  r.map Prod.snd

/-- `UserRepository.get_by_id`. -/
def UserRepository.get_by_id (r : UserStore) (user_id : UUID) : Option User :=
  dictGet r user_id

/-- `UserRepository.create`. -/
def UserRepository.create (r : UserStore) (user : User) : UserStore × User :=
  (dictSet r user.id user, user)

/-- `UserRepository.update`. -/
def UserRepository.update (r : UserStore) (user : User) :
    Except AppError (UserStore × User) :=
  if ¬ (dictContains r user.id = true) then
    .error (.valueError "User not found")
  else
    .ok (dictSet r user.id user, user)

/-- `UserRepository.delete`. -/
def UserRepository.delete (r : UserStore) (user_id : UUID) :
    Except AppError UserStore :=
  if ¬ (dictContains r user_id = true) then
    .error (.valueError "User not found")
  else
    .ok (dictDel r user_id)

/-- The three module-level repositories `task_repo`, `project_repo`,
`user_repo` bundled as the application's mutable state. -/
structure AppState where
  tasks : TaskStore
  projects : ProjectStore
  users : UserStore
deriving DecidableEq, Repr

/-- The state at process start: three empty dicts. -/
def initState : AppState := { tasks := [], projects := [], users := [] }

/-- `validate_task_exists`: returns the stored task or raises 404. -/
def validate_task_exists (s : AppState) (task_id : UUID) :
    Except AppError Task :=
  match TaskRepository.get_by_id s.tasks task_id with
  | some task => .ok task
  | none => .error (.httpException 404 "Task not found")

/-- `validate_project_exists`: returns the stored project or raises 404. -/
def validate_project_exists (s : AppState) (project_id : UUID) :
    Except AppError Project :=
  match ProjectRepository.get_by_id s.projects project_id with
  | some project => .ok project
  | none => .error (.httpException 404 "Project not found")

/-- `validate_user_exists`: returns the stored user or raises 404. -/
def validate_user_exists (s : AppState) (user_id : UUID) :
    Except AppError User :=
  match UserRepository.get_by_id s.users user_id with
  | some user => .ok user
  | none => .error (.httpException 404 "User not found")

/-- The guard `task.project_id and not project_repo.get_by_id(task.project_id)`
shared by `create_task` and `update_task`: true exactly when a project_id is
given (UUIDs are always truthy in Python) but resolves to no stored project. -/
def projectRefMissing (s : AppState) (pid? : Option UUID) : Bool :=
  match pid? with
  | some pid => (ProjectRepository.get_by_id s.projects pid).isNone
  | none => false

/-- `POST /tasks/` (`create_task`): reject a dangling project reference with
400, otherwise delegate to `TaskRepository.create`. -/
def create_task (s : AppState) (task : Task) :
    AppState × Except AppError Task :=
  if projectRefMissing s task.project_id then
    (s, .error (.httpException 400 "Project not found"))
  else
    let (tasks', stored) := TaskRepository.create s.tasks task
    ({ s with tasks := tasks' }, .ok stored)

/-- `GET /tasks/` (`list_tasks`). -/
def list_tasks (s : AppState) : AppState × Except AppError (List Task) :=
  (s, .ok (TaskRepository.get_all s.tasks))

/-- `GET /tasks/{task_id}` (`get_task`). -/
def get_task (s : AppState) (task_id : UUID) :
    AppState × Except AppError Task :=
  (s, validate_task_exists s task_id)

/-- `PUT /tasks/{task_id}` (`update_task`): 400 on path/body id mismatch,
404 when the task is absent, 400 on a dangling project reference, otherwise
delegate to `TaskRepository.update`. -/
def update_task (s : AppState) (task_id : UUID) (task : Task) :
    AppState × Except AppError Task :=
  if task_id ≠ task.id then
    (s, .error (.httpException 400 "Task ID mismatch"))
  else
    match validate_task_exists s task_id with
    | .error e => (s, .error e)
    | .ok _ =>
      if projectRefMissing s task.project_id then
        (s, .error (.httpException 400 "Project not found"))
      else
        match TaskRepository.update s.tasks task with
        | .ok (tasks', stored) => ({ s with tasks := tasks' }, .ok stored)
        | .error e => (s, .error e)

/-- `DELETE /tasks/{task_id}` (`delete_task`). -/
def delete_task (s : AppState) (task_id : UUID) :
    AppState × Except AppError Unit :=
  match validate_task_exists s task_id with
  | .error e => (s, .error e)
  | .ok _ =>
    match TaskRepository.delete s.tasks task_id with
    | .ok tasks' => ({ s with tasks := tasks' }, .ok ())
    | .error e => (s, .error e)

/-- `PATCH /tasks/{task_id}/status` (`update_task_status`): fetch the task,
set its status field, persist via `TaskRepository.update`.  (In the source
the fetched object is the stored one, mutated in place and immediately
re-stored under the same key; the net effect embedded here is identical.) -/
def update_task_status (s : AppState) (task_id : UUID) (status : TaskStatus) :
    AppState × Except AppError Task :=
  match validate_task_exists s task_id with
  | .error e => (s, .error e)
  | .ok task =>
    let task := { task with status := status }
    match TaskRepository.update s.tasks task with
    | .ok (tasks', stored) => ({ s with tasks := tasks' }, .ok stored)
    | .error e => (s, .error e)

/-- `POST /projects/` (`create_project`): direct passthrough. -/
def create_project (s : AppState) (project : Project) :
    AppState × Except AppError Project :=
  let (projects', stored) := ProjectRepository.create s.projects project
  ({ s with projects := projects' }, .ok stored)

/-- `GET /projects/` (`list_projects`). -/
def list_projects (s : AppState) :
    AppState × Except AppError (List Project) :=
  (s, .ok (ProjectRepository.get_all s.projects))

/-- `GET /projects/{project_id}` (`get_project`). -/
def get_project (s : AppState) (project_id : UUID) :
    AppState × Except AppError Project :=
  (s, validate_project_exists s project_id)

/-- `GET /projects/{project_id}/tasks` (`get_project_tasks`). -/
def get_project_tasks (s : AppState) (project_id : UUID) :
    AppState × Except AppError (List Task) :=
  match validate_project_exists s project_id with
  | .error e => (s, .error e)
  | .ok _ => (s, .ok (TaskRepository.get_by_project s.tasks project_id))

/-- The loop of `delete_project`:
`for task in task_repo.get_by_project(project_id): task_repo.delete(task.id)`.
The snapshot list is fixed before the loop (Python builds it eagerly); a
`ValueError` escaping the loop leaves the deletions already performed, as the
exception would in Python. -/
def cascadeDelete : TaskStore → List Task → TaskStore × Except AppError Unit
  | r, [] => (r, .ok ())
  | r, task :: rest =>
    match TaskRepository.delete r task.id with
    | .ok r' => cascadeDelete r' rest
    | .error e => (r, .error e)

/-- `DELETE /projects/{project_id}` (`delete_project`): 404 when the project
is absent; otherwise delete every task referencing it, then the project. -/
def delete_project (s : AppState) (project_id : UUID) :
    AppState × Except AppError Unit :=
  match validate_project_exists s project_id with
  | .error e => (s, .error e)
  | .ok _ =>
    match cascadeDelete s.tasks (TaskRepository.get_by_project s.tasks project_id) with
    | (tasks', .error e) => ({ s with tasks := tasks' }, .error e)
    | (tasks', .ok _) =>
      match ProjectRepository.delete s.projects project_id with
      | .ok projects' =>
        ({ s with tasks := tasks', projects := projects' }, .ok ())
      | .error e => ({ s with tasks := tasks' }, .error e)

/-- `POST /users/` (`create_user`): direct passthrough. -/
def create_user (s : AppState) (user : User) :
    AppState × Except AppError User :=
  let (users', stored) := UserRepository.create s.users user
  ({ s with users := users' }, .ok stored)

/-- `GET /users/` (`list_users`). -/
def list_users (s : AppState) : AppState × Except AppError (List User) :=
  (s, .ok (UserRepository.get_all s.users))

/-- `GET /users/{user_id}` (`get_user`). -/
def get_user (s : AppState) (user_id : UUID) :
    AppState × Except AppError User :=
  (s, validate_user_exists s user_id)

/-- One HTTP request against the exposed endpoints. -/
inductive Request where
  | createTask (task : Task)
  | listTasks
  | getTask (task_id : UUID)
  | updateTask (task_id : UUID) (task : Task)
  | deleteTask (task_id : UUID)
  | updateTaskStatus (task_id : UUID) (status : TaskStatus)
  | createProject (project : Project)
  | listProjects
  | getProject (project_id : UUID)
  | getProjectTasks (project_id : UUID)
  | deleteProject (project_id : UUID)
  | createUser (user : User)
  | listUsers
  | getUser (user_id : UUID)
deriving DecidableEq, Repr

/-- Forget a handler's response body, keeping the state and the outcome. -/
def dropValue {α : Type} :
    AppState × Except AppError α → AppState × Except AppError Unit
  | (s, .ok _) => (s, .ok ())
  | (s, .error e) => (s, .error e)

/-- Dispatch one request to its handler. -/
def applyRequest (s : AppState) : Request → AppState × Except AppError Unit
  | .createTask task => dropValue (create_task s task)
  | .listTasks => dropValue (list_tasks s)
  | .getTask task_id => dropValue (get_task s task_id)
  | .updateTask task_id task => dropValue (update_task s task_id task)
  | .deleteTask task_id => dropValue (delete_task s task_id)
  | .updateTaskStatus task_id st => dropValue (update_task_status s task_id st)
  | .createProject project => dropValue (create_project s project)
  | .listProjects => dropValue (list_projects s)
  | .getProject project_id => dropValue (get_project s project_id)
  | .getProjectTasks project_id => dropValue (get_project_tasks s project_id)
  | .deleteProject project_id => delete_project s project_id
  | .createUser user => dropValue (create_user s user)
  | .listUsers => dropValue (list_users s)
  | .getUser user_id => dropValue (get_user s user_id)

/-- States reachable from process start through the exposed endpoints. -/
inductive Reachable : AppState → Prop
  | init : Reachable initState
  | step (s : AppState) (r : Request) :
      Reachable s → Reachable (applyRequest s r).1

/-- A task's project reference, when set, resolves to a stored project. -/
def taskRefOk (projects : ProjectStore) (t : Task) : Bool :=
  match t.project_id with
  | some pid => (dictGet projects pid).isSome
  | none => true

/-- No stored task holds a dangling project reference. -/
def NoOrphans (s : AppState) : Prop :=
  ∀ q ∈ s.tasks, taskRefOk s.projects q.2 = true

/-- A well-formed store: every entry is keyed by its record's own id, and
keys are pairwise distinct (as in a real dict). -/
def StoreOk {α : Type} (getId : α → UUID) (d : List (UUID × α)) : Prop :=
  (∀ q ∈ d, q.1 = getId q.2) ∧ (d.map Prod.fst).Nodup

/-- The inductive invariant: all three stores well-formed, no orphans. -/
def Inv (s : AppState) : Prop :=
  StoreOk Task.id s.tasks ∧ StoreOk Project.id s.projects ∧
    StoreOk User.id s.users ∧ NoOrphans s

/-! ### Lemmas about the dict model -/

theorem dictGet_dictSet_self {α : Type} (d : List (UUID × α)) (k : UUID) (v : α) :
    dictGet (dictSet d k v) k = some v := by
  induction d with
  | nil => simp [dictSet, dictGet]
  | cons q d ih =>
    obtain ⟨k', v'⟩ := q
    by_cases h : k' = k
    · subst h
      simp [dictSet, dictGet]
    · simp [dictSet, dictGet, h, ih]

theorem dictGet_dictSet_ne {α : Type} (d : List (UUID × α)) (k k' : UUID) (v : α)
    (h : k' ≠ k) : dictGet (dictSet d k v) k' = dictGet d k' := by
  induction d with
  | nil =>
    have h1 : ¬ k = k' := fun hh => h hh.symm
    simp [dictSet, dictGet, h1]
  | cons q d ih =>
    obtain ⟨k'', v''⟩ := q
    by_cases h2 : k'' = k
    · subst h2
      have h1 : ¬ k'' = k' := fun hh => h hh.symm
      simp [dictSet, dictGet, h1]
    · by_cases h3 : k'' = k'
      · simp [dictSet, dictGet, h2, h3, h]
      · simp [dictSet, dictGet, h2, h3, ih]

theorem mem_dictSet {α : Type} (d : List (UUID × α)) (k : UUID) (v : α)
    (q : UUID × α) (h : q ∈ dictSet d k v) : q = (k, v) ∨ q ∈ d := by
  induction d with
  | nil => simpa [dictSet] using h
  | cons p d ih =>
    obtain ⟨k', v'⟩ := p
    by_cases h2 : k' = k
    · rcases List.mem_cons.mp (by simpa [dictSet, h2] using h) with h3 | h3
      · exact Or.inl h3
      · exact Or.inr (List.mem_cons_of_mem _ h3)
    · rcases List.mem_cons.mp (by simpa [dictSet, h2] using h) with h3 | h3
      · exact Or.inr (by simp [h3])
      · rcases ih h3 with h4 | h4
        · exact Or.inl h4
        · exact Or.inr (List.mem_cons_of_mem _ h4)

theorem mem_map_fst_dictSet {α : Type} (d : List (UUID × α)) (k k'' : UUID)
    (v : α) (h : k'' ∈ (dictSet d k v).map Prod.fst) :
    k'' = k ∨ k'' ∈ d.map Prod.fst := by
  rcases List.mem_map.mp h with ⟨q, hq, rfl⟩
  rcases mem_dictSet d k v q hq with h2 | h2
  · exact Or.inl (by rw [h2])
  · exact Or.inr (List.mem_map_of_mem _ h2)

theorem nodup_map_fst_dictSet {α : Type} (d : List (UUID × α)) (k : UUID)
    (v : α) (h : (d.map Prod.fst).Nodup) :
    ((dictSet d k v).map Prod.fst).Nodup := by
  induction d with
  | nil => simp [dictSet]
  | cons p d ih =>
    obtain ⟨k', v'⟩ := p
    simp only [List.map_cons, List.nodup_cons] at h
    by_cases h2 : k' = k
    · subst h2
      simpa [dictSet] using h
    · simp only [dictSet, if_neg h2, List.map_cons, List.nodup_cons]
      refine ⟨?_, ih h.2⟩
      intro hmem
      rcases mem_map_fst_dictSet d k k' v hmem with h3 | h3
      · exact h2 h3
      · exact h.1 h3

theorem dictDel_sublist {α : Type} (d : List (UUID × α)) (k : UUID) :
    List.Sublist (dictDel d k) d := by
  induction d with
  | nil => simp [dictDel]
  | cons q d ih =>
    obtain ⟨k', v'⟩ := q
    by_cases h : k' = k
    · simp only [dictDel, if_pos h]
      exact (List.Sublist.refl d).cons (k', v')
    · simp only [dictDel, if_neg h]
      exact ih.cons₂ (k', v')

theorem mem_dictDel {α : Type} (d : List (UUID × α)) (k : UUID) (q : UUID × α)
    (h : q ∈ dictDel d k) : q ∈ d :=
  (dictDel_sublist d k).subset h

theorem nodup_map_fst_dictDel {α : Type} (d : List (UUID × α)) (k : UUID)
    (h : (d.map Prod.fst).Nodup) : ((dictDel d k).map Prod.fst).Nodup :=
  h.sublist ((dictDel_sublist d k).map Prod.fst)

theorem dictGet_none_of_not_mem {α : Type} (d : List (UUID × α)) (k : UUID)
    (h : k ∉ d.map Prod.fst) : dictGet d k = none := by
  induction d with
  | nil => rfl
  | cons p d ih =>
    obtain ⟨k', v'⟩ := p
    simp only [List.map_cons, List.mem_cons, not_or] at h
    have h1 : ¬ k' = k := fun hh => h.1 hh.symm
    simp [dictGet, h1, ih h.2]

theorem dictGet_dictDel_self {α : Type} (d : List (UUID × α)) (k : UUID)
    (h : (d.map Prod.fst).Nodup) : dictGet (dictDel d k) k = none := by
  induction d with
  | nil => rfl
  | cons p d ih =>
    obtain ⟨k', v'⟩ := p
    simp only [List.map_cons, List.nodup_cons] at h
    by_cases h2 : k' = k
    · subst h2
      simp only [dictDel, if_pos rfl]
      exact dictGet_none_of_not_mem d k' h.1
    · simp [dictDel, dictGet, h2, ih h.2]

theorem dictGet_dictDel_ne {α : Type} (d : List (UUID × α)) (k k' : UUID)
    (h : k' ≠ k) : dictGet (dictDel d k) k' = dictGet d k' := by
  induction d with
  | nil => rfl
  | cons p d ih =>
    obtain ⟨k'', v''⟩ := p
    by_cases h2 : k'' = k
    · subst h2
      have h1 : ¬ k'' = k' := fun hh => h hh.symm
      simp [dictDel, dictGet, h1]
    · by_cases h3 : k'' = k'
      · simp [dictDel, dictGet, h2, h3, h]
      · simp [dictDel, dictGet, h2, h3, ih]

theorem dictGet_eq_some_mem {α : Type} (d : List (UUID × α)) (k : UUID) (v : α)
    (h : dictGet d k = some v) : (k, v) ∈ d := by
  induction d with
  | nil => simp [dictGet] at h
  | cons p d ih =>
    obtain ⟨k', v'⟩ := p
    by_cases h2 : k' = k
    · subst h2
      have h4 : v' = v := by simpa [dictGet] using h
      subst h4
      exact List.mem_cons_self _ _
    · exact List.mem_cons_of_mem _ (ih (by simpa [dictGet, h2] using h))

theorem dictGet_isSome_of_mem {α : Type} (d : List (UUID × α)) (k : UUID)
    (v : α) (h : (k, v) ∈ d) : (dictGet d k).isSome = true := by
  induction d with
  | nil => simp at h
  | cons p d ih =>
    obtain ⟨k', v'⟩ := p
    by_cases h2 : k' = k
    · simp [dictGet, h2]
    · rcases List.mem_cons.mp h with h3 | h3
      · exact absurd (congrArg Prod.fst h3).symm h2
      · simp [dictGet, h2, ih h3]

theorem dictGet_isSome_dictSet {α : Type} (d : List (UUID × α)) (k k' : UUID)
    (v : α) (h : (dictGet d k').isSome = true) :
    (dictGet (dictSet d k v) k').isSome = true := by
  by_cases h2 : k' = k
  · subst h2
    simp [dictGet_dictSet_self]
  · rwa [dictGet_dictSet_ne d k k' v h2]

/-! ### The cascade loop of delete_project -/

theorem cascadeDelete_cons (k : UUID) (v : Task) (d : TaskStore) (l : List Task)
    (h : ∀ t ∈ l, t.id ≠ k) :
    cascadeDelete ((k, v) :: d) l =
      ((k, v) :: (cascadeDelete d l).1, (cascadeDelete d l).2) := by
  induction l generalizing d with
  | nil => rfl
  | cons t rest ih =>
    have hk' : ¬ k = t.id := fun hh => h t (List.mem_cons_self _ _) hh.symm
    have hrest : ∀ t' ∈ rest, t'.id ≠ k :=
      fun t' ht' => h t' (List.mem_cons_of_mem _ ht')
    by_cases hc : (dictGet d t.id).isSome = true
    · simp [cascadeDelete, TaskRepository.delete, dictContains, dictGet,
        dictDel, hk', hc, ih _ hrest]
    · simp [cascadeDelete, TaskRepository.delete, dictContains, dictGet,
        hk', hc]

theorem cascadeDelete_filter (d : TaskStore) (p : Task → Bool)
    (hkeys : ∀ q ∈ d, q.1 = q.2.id) (hnodup : (d.map Prod.fst).Nodup) :
    cascadeDelete d ((d.map Prod.snd).filter p) =
      (d.filter (fun q => ! p q.2), .ok ()) := by
  induction d with
  | nil => rfl
  | cons q d ih =>
    obtain ⟨k, v⟩ := q
    have hk : k = v.id := hkeys (k, v) (List.mem_cons_self _ _)
    simp only [List.map_cons, List.nodup_cons] at hnodup
    have hkeys' : ∀ q ∈ d, q.1 = q.2.id :=
      fun q hq => hkeys q (List.mem_cons_of_mem _ hq)
    by_cases hp : p v = true
    · subst hk
      simp [List.filter_cons, hp, cascadeDelete, TaskRepository.delete,
        dictContains, dictGet, dictDel, ih hkeys' hnodup.2]
    · have hids : ∀ t ∈ (d.map Prod.snd).filter p, t.id ≠ k := by
        intro t ht hkt
        rcases List.mem_map.mp (List.mem_of_mem_filter ht) with ⟨q', hq', rfl⟩
        have h1 : q'.1 = k := (hkeys' q' hq').trans hkt
        exact hnodup.1 (h1 ▸ List.mem_map_of_mem Prod.fst hq')
      have hsnap : List.filter p (v :: d.map Prod.snd) = (d.map Prod.snd).filter p := by
        simp [List.filter_cons, hp]
      rw [List.map_cons, hsnap, cascadeDelete_cons k v d _ hids, ih hkeys' hnodup.2]
      simp [List.filter_cons, hp]

/-! ### Characterizations of the handlers -/

theorem dropValue_fst {α : Type} (p : AppState × Except AppError α) :
    (dropValue p).1 = p.1 := by
  obtain ⟨s, x⟩ := p
  cases x <;> rfl

theorem dropValue_snd_error {α : Type} (p : AppState × Except AppError α)
    (e : AppError) : (dropValue p).2 = .error e ↔ p.2 = .error e := by
  obtain ⟨s, x⟩ := p
  cases x <;> simp [dropValue]

theorem create_task_of_missing (s : AppState) (task : Task)
    (h : projectRefMissing s task.project_id = true) :
    create_task s task = (s, .error (.httpException 400 "Project not found")) := by
  simp [create_task, h]

theorem create_task_of_ok (s : AppState) (task : Task)
    (h : projectRefMissing s task.project_id = false) :
    create_task s task =
      ({ s with tasks := dictSet s.tasks task.id task }, .ok task) := by
  simp [create_task, h, TaskRepository.create]

theorem update_task_of_ok (s : AppState) (task_id : UUID) (task : Task)
    (h1 : task_id = task.id)
    (h2 : (dictGet s.tasks task_id).isSome = true)
    (h3 : projectRefMissing s task.project_id = false) :
    update_task s task_id task =
      ({ s with tasks := dictSet s.tasks task.id task }, .ok task) := by
  subst h1
  obtain ⟨t, ht⟩ := Option.isSome_iff_exists.mp h2
  simp [update_task, validate_task_exists, TaskRepository.get_by_id, ht, h3,
    TaskRepository.update, dictContains]

theorem update_task_cases (s : AppState) (task_id : UUID) (task : Task) :
    (∃ e, update_task s task_id task = (s, .error e)) ∨
      (projectRefMissing s task.project_id = false ∧
        update_task s task_id task =
          ({ s with tasks := dictSet s.tasks task.id task }, .ok task)) := by
  by_cases h1 : task_id = task.id
  · by_cases h2 : (dictGet s.tasks task_id).isSome = true
    · by_cases h3 : projectRefMissing s task.project_id = true
      · refine Or.inl ⟨.httpException 400 "Project not found", ?_⟩
        subst h1
        obtain ⟨t, ht⟩ := Option.isSome_iff_exists.mp h2
        simp [update_task, validate_task_exists, TaskRepository.get_by_id, ht, h3]
      · have h3' : projectRefMissing s task.project_id = false := by simpa using h3
        exact Or.inr ⟨h3', update_task_of_ok s task_id task h1 h2 h3'⟩
    · refine Or.inl ⟨.httpException 404 "Task not found", ?_⟩
      subst h1
      have ht : dictGet s.tasks task.id = none := by
        cases hh : dictGet s.tasks task.id
        · rfl
        · rw [hh] at h2
          simp at h2
      simp [update_task, validate_task_exists, TaskRepository.get_by_id, ht]
  · exact Or.inl ⟨.httpException 400 "Task ID mismatch", by simp [update_task, h1]⟩

theorem delete_task_cases (s : AppState) (task_id : UUID) :
    (∃ e, delete_task s task_id = (s, .error e)) ∨
      delete_task s task_id =
        ({ s with tasks := dictDel s.tasks task_id }, .ok ()) := by
  cases ht : dictGet s.tasks task_id with
  | none =>
    refine Or.inl ⟨.httpException 404 "Task not found", ?_⟩
    simp [delete_task, validate_task_exists, TaskRepository.get_by_id, ht]
  | some t =>
    have hc : dictContains s.tasks task_id = true := by simp [dictContains, ht]
    exact Or.inr (by
      simp [delete_task, validate_task_exists, TaskRepository.get_by_id, ht,
        TaskRepository.delete, hc])

theorem update_task_status_err (s : AppState) (task_id : UUID)
    (status : TaskStatus) (ht : dictGet s.tasks task_id = none) :
    update_task_status s task_id status =
      (s, .error (.httpException 404 "Task not found")) := by
  simp [update_task_status, validate_task_exists, TaskRepository.get_by_id, ht]

theorem update_task_status_of_ok (s : AppState) (task_id : UUID)
    (status : TaskStatus) (t : Task) (ht : dictGet s.tasks task_id = some t)
    (hc : dictContains s.tasks t.id = true) :
    update_task_status s task_id status =
      ({ s with tasks := dictSet s.tasks t.id { t with status := status } },
        .ok { t with status := status }) := by
  simp [update_task_status, validate_task_exists, TaskRepository.get_by_id,
    ht, TaskRepository.update, hc]

theorem update_task_status_fst_of_error (s : AppState) (task_id : UUID)
    (status : TaskStatus) (e : AppError)
    (h : (update_task_status s task_id status).2 = .error e) :
    (update_task_status s task_id status).1 = s := by
  cases ht : dictGet s.tasks task_id with
  | none => simp [update_task_status_err s task_id status ht]
  | some t =>
    by_cases hc : dictContains s.tasks t.id = true
    · rw [update_task_status_of_ok s task_id status t ht hc] at h
      simp at h
    · have hc' : dictContains s.tasks t.id = false := by simpa using hc
      simp [update_task_status, validate_task_exists, TaskRepository.get_by_id,
        ht, TaskRepository.update, hc']

theorem create_project_eq (s : AppState) (project : Project) :
    create_project s project =
      ({ s with projects := dictSet s.projects project.id project },
        .ok project) := rfl

theorem create_user_eq (s : AppState) (user : User) :
    create_user s user =
      ({ s with users := dictSet s.users user.id user }, .ok user) := rfl

theorem delete_project_err (s : AppState) (project_id : UUID)
    (hp : dictGet s.projects project_id = none) :
    delete_project s project_id =
      (s, .error (.httpException 404 "Project not found")) := by
  simp [delete_project, validate_project_exists, ProjectRepository.get_by_id, hp]

theorem delete_project_spec (s : AppState) (project_id : UUID) (P : Project)
    (hkeys : ∀ q ∈ s.tasks, q.1 = q.2.id)
    (hnodup : (s.tasks.map Prod.fst).Nodup)
    (hp : dictGet s.projects project_id = some P) :
    delete_project s project_id =
      ({ s with
          tasks := s.tasks.filter (fun q => ! (q.2.project_id == some project_id)),
          projects := dictDel s.projects project_id }, .ok ()) := by
  have hcas := cascadeDelete_filter s.tasks
    (fun t => t.project_id == some project_id) hkeys hnodup
  have hc : dictContains s.projects project_id = true := by simp [dictContains, hp]
  simp [delete_project, validate_project_exists, ProjectRepository.get_by_id, hp,
    TaskRepository.get_by_project, hcas, ProjectRepository.delete, hc]

/-! ### Preservation of the invariant -/

theorem storeOk_dictSet {α : Type} (getId : α → UUID) (d : List (UUID × α))
    (v : α) (h : StoreOk getId d) : StoreOk getId (dictSet d (getId v) v) := by
  refine ⟨?_, nodup_map_fst_dictSet d _ v h.2⟩
  intro q hq
  rcases mem_dictSet d _ v q hq with h2 | h2
  · subst h2
    rfl
  · exact h.1 q h2

theorem storeOk_dictDel {α : Type} (getId : α → UUID) (d : List (UUID × α))
    (k : UUID) (h : StoreOk getId d) : StoreOk getId (dictDel d k) :=
  ⟨fun q hq => h.1 q (mem_dictDel d k q hq), nodup_map_fst_dictDel d k h.2⟩

theorem storeOk_filter {α : Type} (getId : α → UUID) (d : List (UUID × α))
    (p : UUID × α → Bool) (h : StoreOk getId d) :
    StoreOk getId (d.filter p) :=
  ⟨fun q hq => h.1 q (List.mem_of_mem_filter hq),
    h.2.sublist ((List.filter_sublist d).map Prod.fst)⟩

theorem taskRefOk_dictSet (projects : ProjectStore) (k : UUID) (v : Project)
    (t : Task) (h : taskRefOk projects t = true) :
    taskRefOk (dictSet projects k v) t = true := by
  unfold taskRefOk at h ⊢
  cases hp : t.project_id with
  | none => rfl
  | some pid =>
    rw [hp] at h
    exact dictGet_isSome_dictSet projects k pid v h

theorem taskRefOk_of_not_missing (s : AppState) (t : Task)
    (h : projectRefMissing s t.project_id = false) :
    taskRefOk s.projects t = true := by
  cases hp : t.project_id with
  | none => simp [taskRefOk, hp]
  | some pid =>
    rw [hp] at h
    simp only [projectRefMissing, ProjectRepository.get_by_id] at h
    simp only [taskRefOk, hp]
    cases hg : dictGet s.projects pid with
    | none =>
      rw [hg] at h
      simp at h
    | some P => rfl

theorem inv_applyRequest (s : AppState) (r : Request) (hinv : Inv s) :
    Inv (applyRequest s r).1 := by
  obtain ⟨htask, hproj, huser, horph⟩ := hinv
  cases r with
  | createTask task =>
    by_cases h : projectRefMissing s task.project_id = true
    · rw [applyRequest, dropValue_fst, create_task_of_missing s task h]
      exact ⟨htask, hproj, huser, horph⟩
    · have h' : projectRefMissing s task.project_id = false := by simpa using h
      rw [applyRequest, dropValue_fst, create_task_of_ok s task h']
      refine ⟨storeOk_dictSet Task.id s.tasks task htask, hproj, huser, ?_⟩
      intro q hq
      rcases mem_dictSet s.tasks task.id task q hq with h2 | h2
      · rw [h2]
        exact taskRefOk_of_not_missing s task h'
      · exact horph q h2
  | listTasks =>
    exact ⟨htask, hproj, huser, horph⟩
  | getTask task_id =>
    rw [applyRequest, dropValue_fst, get_task]
    exact ⟨htask, hproj, huser, horph⟩
  | updateTask task_id task =>
    rcases update_task_cases s task_id task with ⟨e, he⟩ | ⟨h3, he⟩
    · rw [applyRequest, dropValue_fst, he]
      exact ⟨htask, hproj, huser, horph⟩
    · rw [applyRequest, dropValue_fst, he]
      refine ⟨storeOk_dictSet Task.id s.tasks task htask, hproj, huser, ?_⟩
      intro q hq
      rcases mem_dictSet s.tasks task.id task q hq with h2 | h2
      · rw [h2]
        exact taskRefOk_of_not_missing s task h3
      · exact horph q h2
  | deleteTask task_id =>
    rcases delete_task_cases s task_id with ⟨e, he⟩ | he
    · rw [applyRequest, dropValue_fst, he]
      exact ⟨htask, hproj, huser, horph⟩
    · rw [applyRequest, dropValue_fst, he]
      refine ⟨storeOk_dictDel Task.id s.tasks task_id htask, hproj, huser, ?_⟩
      intro q hq
      exact horph q (mem_dictDel s.tasks task_id q hq)
  | updateTaskStatus task_id status =>
    cases ht : dictGet s.tasks task_id with
    | none =>
      rw [applyRequest, dropValue_fst, update_task_status_err s task_id status ht]
      exact ⟨htask, hproj, huser, horph⟩
    | some t =>
      have hmem : (task_id, t) ∈ s.tasks := dictGet_eq_some_mem s.tasks task_id t ht
      have hid : task_id = t.id := htask.1 (task_id, t) hmem
      have hc : dictContains s.tasks t.id = true := by
        rw [← hid]
        simp [dictContains, ht]
      rw [applyRequest, dropValue_fst, update_task_status_of_ok s task_id status t ht hc]
      refine ⟨storeOk_dictSet Task.id s.tasks { t with status := status } htask,
        hproj, huser, ?_⟩
      intro q hq
      rcases mem_dictSet s.tasks t.id { t with status := status } q hq with h2 | h2
      · rw [h2]
        exact horph (task_id, t) hmem
      · exact horph q h2
  | createProject project =>
    rw [applyRequest, dropValue_fst, create_project_eq]
    refine ⟨htask, storeOk_dictSet Project.id s.projects project hproj, huser, ?_⟩
    intro q hq
    exact taskRefOk_dictSet s.projects project.id project q.2 (horph q hq)
  | listProjects =>
    exact ⟨htask, hproj, huser, horph⟩
  | getProject project_id =>
    rw [applyRequest, dropValue_fst, get_project]
    exact ⟨htask, hproj, huser, horph⟩
  | getProjectTasks project_id =>
    rw [applyRequest, dropValue_fst]
    have : (get_project_tasks s project_id).1 = s := by
      unfold get_project_tasks
      cases validate_project_exists s project_id <;> rfl
    rw [this]
    exact ⟨htask, hproj, huser, horph⟩
  | deleteProject project_id =>
    cases hp : dictGet s.projects project_id with
    | none =>
      rw [applyRequest, delete_project_err s project_id hp]
      exact ⟨htask, hproj, huser, horph⟩
    | some P =>
      rw [applyRequest, delete_project_spec s project_id P htask.1 htask.2 hp]
      refine ⟨storeOk_filter Task.id s.tasks _ htask,
        storeOk_dictDel Project.id s.projects project_id hproj, huser, ?_⟩
      intro q hq
      have hmem := List.mem_of_mem_filter hq
      have hcond := List.of_mem_filter hq
      show taskRefOk (dictDel s.projects project_id) q.2 = true
      cases hpid : q.2.project_id with
      | none => simp [taskRefOk, hpid]
      | some pid =>
        have hne : pid ≠ project_id := by
          intro hh
          rw [hpid, hh] at hcond
          simp at hcond
        have horq := horph q hmem
        simp only [taskRefOk, hpid] at horq ⊢
        rwa [dictGet_dictDel_ne s.projects project_id pid hne]
  | createUser user =>
    rw [applyRequest, dropValue_fst, create_user_eq]
    exact ⟨htask, hproj, storeOk_dictSet User.id s.users user huser, horph⟩
  | listUsers =>
    exact ⟨htask, hproj, huser, horph⟩
  | getUser user_id =>
    rw [applyRequest, dropValue_fst, get_user]
    exact ⟨htask, hproj, huser, horph⟩

theorem inv_initState : Inv initState := by
  refine ⟨⟨?_, ?_⟩, ⟨?_, ?_⟩, ⟨?_, ?_⟩, ?_⟩ <;> simp [initState, NoOrphans]

theorem reachable_inv (s : AppState) (h : Reachable s) : Inv s := by
  induction h with
  | init => exact inv_initState
  | step s r _ ih => exact inv_applyRequest s r ih

/-! ### Concrete scenario used by the witnesses -/

def sampleProject : Project := { id := 10, name := "P" }

def sampleTask1 : Task := { id := 1, title := "T1", project_id := some 10 }

def sampleTask2 : Task := { id := 2, title := "T2", project_id := some 10 }

def sampleTask3 : Task := { id := 3, title := "T3", project_id := none }

/-- The state after creating project P and tasks T1, T2 (referencing P)
and T3 (no project). -/
def sampleState : AppState :=
  (applyRequest
    (applyRequest
      (applyRequest
        (applyRequest initState (Request.createProject sampleProject)).1
        (Request.createTask sampleTask1)).1
      (Request.createTask sampleTask2)).1
    (Request.createTask sampleTask3)).1

theorem sampleState_reachable : Reachable sampleState :=
  Reachable.step _ _ (Reachable.step _ _ (Reachable.step _ _
    (Reachable.step _ _ Reachable.init)))

/-! ### The claims -/

/-- C1: in every state reachable through the exposed operations, every
stored task whose project_id is set references a project currently present
in the project store — no observable state contains an orphaned task. -/
theorem C1_no_orphaned_tasks (s : AppState) (hs : Reachable s) :
    NoOrphans s :=
  (reachable_inv s hs).2.2.2

theorem C1_witness : NoOrphans sampleState :=
  C1_no_orphaned_tasks sampleState sampleState_reachable

/-- C2: deleting an existing project removes exactly the tasks whose
project_id equals the project's id (the cascade loop), then the project
itself, and succeeds; tasks with a null or different project_id remain. -/
theorem C2_delete_project_cascades (s : AppState) (project_id : UUID)
    (P : Project) (hs : Reachable s)
    (hp : dictGet s.projects project_id = some P) :
    delete_project s project_id =
      ({ s with
          tasks := s.tasks.filter (fun q => ! (q.2.project_id == some project_id)),
          projects := dictDel s.projects project_id }, .ok ()) ∧
    dictGet (delete_project s project_id).1.projects project_id = none ∧
    (∀ q ∈ s.tasks, q.2.project_id ≠ some project_id →
      q ∈ (delete_project s project_id).1.tasks) ∧
    (∀ q ∈ (delete_project s project_id).1.tasks,
      q.2.project_id ≠ some project_id) := by
  obtain ⟨htask, hproj, huser, horph⟩ := reachable_inv s hs
  have hds := delete_project_spec s project_id P htask.1 htask.2 hp
  refine ⟨hds, ?_, ?_, ?_⟩
  · rw [hds]
    exact dictGet_dictDel_self s.projects project_id hproj.2
  · intro q hq hne
    rw [hds]
    exact List.mem_filter.mpr ⟨hq, by simpa using hne⟩
  · intro q hq
    rw [hds] at hq
    simpa using List.of_mem_filter hq

theorem C2_witness :
    dictGet (delete_project sampleState 10).1.tasks 1 = none ∧
    dictGet (delete_project sampleState 10).1.tasks 2 = none ∧
    dictGet (delete_project sampleState 10).1.tasks 3 = some sampleTask3 ∧
    dictGet (delete_project sampleState 10).1.projects 10 = none := by
  have h := C2_delete_project_cascades sampleState 10 sampleProject
    sampleState_reachable rfl
  rw [h.1]
  decide

/-- C3: creating a task whose project_id does not resolve to a stored
project fails with the 400 "Project not found" client error and stores
nothing; creating a task with project_id omitted always succeeds and the
task is visible to subsequent get/list. -/
theorem C3_create_task_validation :
    (∀ (s : AppState) (task : Task) (pid : UUID),
      task.project_id = some pid → dictGet s.projects pid = none →
      create_task s task = (s, .error (.httpException 400 "Project not found"))) ∧
    (∀ (s : AppState) (task : Task), task.project_id = none →
      create_task s task =
        ({ s with tasks := dictSet s.tasks task.id task }, .ok task) ∧
      dictGet (create_task s task).1.tasks task.id = some task ∧
      task ∈ TaskRepository.get_all (create_task s task).1.tasks) := by
  constructor
  · intro s task pid hpid hget
    apply create_task_of_missing
    simp [projectRefMissing, hpid, ProjectRepository.get_by_id, hget]
  · intro s task hpid
    have h : projectRefMissing s task.project_id = false := by
      simp [projectRefMissing, hpid]
    have he := create_task_of_ok s task h
    refine ⟨he, ?_, ?_⟩
    · rw [he]
      exact dictGet_dictSet_self s.tasks task.id task
    · rw [he]
      exact List.mem_map_of_mem Prod.snd
        (dictGet_eq_some_mem _ _ _ (dictGet_dictSet_self s.tasks task.id task))

theorem C3_witness :
    create_task initState { id := 5, title := "x", project_id := some 99 } =
      (initState, .error (.httpException 400 "Project not found")) ∧
    dictGet (create_task initState sampleTask3).1.tasks 3 = some sampleTask3 := by
  constructor
  · exact C3_create_task_validation.1 initState _ 99 rfl rfl
  · exact (C3_create_task_validation.2 initState sampleTask3 rfl).2.1

/-- C4: for every record, repository update fails (the repo's
`ValueError("... not found")`, which the spec calls NotFound) when the
record's identity is not in the store; when it is, the stored record is
fully replaced — a subsequent get of that id returns exactly the new
record, preserving nothing from the old one. -/
theorem C4_repository_update :
    (∀ (r : TaskStore) (task : Task),
      (dictContains r task.id = false →
        TaskRepository.update r task = .error (.valueError "Task not found")) ∧
      (dictContains r task.id = true →
        TaskRepository.update r task = .ok (dictSet r task.id task, task) ∧
        dictGet (dictSet r task.id task) task.id = some task)) ∧
    (∀ (r : ProjectStore) (project : Project),
      (dictContains r project.id = false →
        ProjectRepository.update r project =
          .error (.valueError "Project not found")) ∧
      (dictContains r project.id = true →
        ProjectRepository.update r project =
          .ok (dictSet r project.id project, project) ∧
        dictGet (dictSet r project.id project) project.id = some project)) ∧
    (∀ (r : UserStore) (user : User),
      (dictContains r user.id = false →
        UserRepository.update r user = .error (.valueError "User not found")) ∧
      (dictContains r user.id = true →
        UserRepository.update r user = .ok (dictSet r user.id user, user) ∧
        dictGet (dictSet r user.id user) user.id = some user)) := by
  refine ⟨fun r task => ⟨?_, ?_⟩, fun r project => ⟨?_, ?_⟩, fun r user => ⟨?_, ?_⟩⟩
  · intro h
    simp [TaskRepository.update, h]
  · intro h
    exact ⟨by simp [TaskRepository.update, h], dictGet_dictSet_self r task.id task⟩
  · intro h
    simp [ProjectRepository.update, h]
  · intro h
    exact ⟨by simp [ProjectRepository.update, h],
      dictGet_dictSet_self r project.id project⟩
  · intro h
    simp [UserRepository.update, h]
  · intro h
    exact ⟨by simp [UserRepository.update, h], dictGet_dictSet_self r user.id user⟩

theorem C4_witness :
    TaskRepository.update [] sampleTask3 = .error (.valueError "Task not found") ∧
    TaskRepository.update [(3, sampleTask3)]
        { sampleTask3 with title := "new" } =
      .ok ([(3, { sampleTask3 with title := "new" })],
        { sampleTask3 with title := "new" }) := by
  constructor
  · exact (C4_repository_update.1 [] sampleTask3).1 rfl
  · exact ((C4_repository_update.1 [(3, sampleTask3)]
      { sampleTask3 with title := "new" }).2 rfl).1

/-- C5: every failing operation is atomic — whenever a request against a
reachable state produces an error (IdentityMismatch, NotFound,
InvalidReference, or a repository ValueError), all three repositories are
left exactly as they were immediately before the operation. -/
theorem C5_failed_operations_atomic (s : AppState) (r : Request)
    (e : AppError) (hs : Reachable s)
    (h : (applyRequest s r).2 = .error e) : (applyRequest s r).1 = s := by
  obtain ⟨htask, hproj, huser, horph⟩ := reachable_inv s hs
  cases r with
  | createTask task =>
    by_cases hm : projectRefMissing s task.project_id = true
    · rw [applyRequest, dropValue_fst, create_task_of_missing s task hm]
    · rw [applyRequest, create_task_of_ok s task (by simpa using hm)] at h
      simp [dropValue] at h
  | listTasks => rfl
  | getTask task_id =>
    rw [applyRequest, dropValue_fst]
    rfl
  | updateTask task_id task =>
    rcases update_task_cases s task_id task with ⟨e', he⟩ | ⟨h3, he⟩
    · rw [applyRequest, dropValue_fst, he]
    · rw [applyRequest, he] at h
      simp [dropValue] at h
  | deleteTask task_id =>
    rcases delete_task_cases s task_id with ⟨e', he⟩ | he
    · rw [applyRequest, dropValue_fst, he]
    · rw [applyRequest, he] at h
      simp [dropValue] at h
  | updateTaskStatus task_id status =>
    rw [applyRequest, dropValue_snd_error] at h
    rw [applyRequest, dropValue_fst]
    exact update_task_status_fst_of_error s task_id status e h
  | createProject project =>
    rw [applyRequest, create_project_eq] at h
    simp [dropValue] at h
  | listProjects => rfl
  | getProject project_id =>
    rw [applyRequest, dropValue_fst]
    rfl
  | getProjectTasks project_id =>
    rw [applyRequest, dropValue_fst]
    unfold get_project_tasks
    cases validate_project_exists s project_id <;> rfl
  | deleteProject project_id =>
    cases hp : dictGet s.projects project_id with
    | none => rw [applyRequest, delete_project_err s project_id hp]
    | some P =>
      rw [applyRequest, delete_project_spec s project_id P htask.1 htask.2 hp] at h
      simp at h
  | createUser user =>
    rw [applyRequest, create_user_eq] at h
    simp [dropValue] at h
  | listUsers => rfl
  | getUser user_id =>
    rw [applyRequest, dropValue_fst]
    rfl

theorem C5_witness :
    (applyRequest initState (Request.updateTask 1 { id := 2, title := "x" })).2 =
      .error (.httpException 400 "Task ID mismatch") ∧
    (applyRequest initState (Request.updateTask 1 { id := 2, title := "x" })).1 =
      initState := by
  refine ⟨rfl, ?_⟩
  exact C5_failed_operations_atomic initState
    (Request.updateTask 1 { id := 2, title := "x" })
    (.httpException 400 "Task ID mismatch") Reachable.init rfl

/-- C6: for an existing task, the status-only update changes only the
status field of that task ({t with status := status} keeps id, title,
description, project_id); every other task entry, and the project and user
stores, are unchanged. -/
theorem C6_status_update_frame (s : AppState) (task_id : UUID) (t : Task)
    (status : TaskStatus) (hs : Reachable s)
    (ht : dictGet s.tasks task_id = some t) :
    update_task_status s task_id status =
      ({ s with tasks := dictSet s.tasks task_id { t with status := status } },
        .ok { t with status := status }) ∧
    ({ t with status := status } : Task).title = t.title ∧
    ({ t with status := status } : Task).description = t.description ∧
    ({ t with status := status } : Task).project_id = t.project_id ∧
    dictGet (update_task_status s task_id status).1.tasks task_id =
      some { t with status := status } ∧
    (∀ k, k ≠ task_id →
      dictGet (update_task_status s task_id status).1.tasks k =
        dictGet s.tasks k) ∧
    (update_task_status s task_id status).1.projects = s.projects ∧
    (update_task_status s task_id status).1.users = s.users := by
  obtain ⟨htask, hproj, huser, horph⟩ := reachable_inv s hs
  have hmem : (task_id, t) ∈ s.tasks := dictGet_eq_some_mem s.tasks task_id t ht
  have hid : task_id = t.id := htask.1 (task_id, t) hmem
  subst hid
  have hc : dictContains s.tasks t.id = true := by
    simp [dictContains, ht]
  have he := update_task_status_of_ok s t.id status t ht hc
  refine ⟨he, rfl, rfl, rfl, ?_, ?_, ?_, ?_⟩
  · rw [he]
    exact dictGet_dictSet_self s.tasks t.id { t with status := status }
  · intro k hk
    rw [he]
    exact dictGet_dictSet_ne s.tasks t.id k { t with status := status } hk
  · rw [he]
  · rw [he]

theorem C6_witness :
    update_task_status sampleState 1 TaskStatus.done =
      ({ sampleState with
          tasks := dictSet sampleState.tasks 1
            { sampleTask1 with status := TaskStatus.done } },
        .ok { sampleTask1 with status := TaskStatus.done }) :=
  (C6_status_update_frame sampleState 1 sampleTask1 TaskStatus.done
    sampleState_reachable rfl).1

/-- A task with an empty title: accepted by the pydantic model, which only
requires `title` to be a string, with no non-emptiness check. -/
def emptyTitleTask : Task := { id := 7, title := "" }

/-- C7 counterexample: `create_task` accepts a task whose title is the
empty string and stores it, so a stored task can have an empty title —
refuting the claim that no empty-titled task is ever accepted. -/
theorem C7_counterexample :
    (create_task initState emptyTitleTask).2 = .ok emptyTitleTask ∧
    dictGet (create_task initState emptyTitleTask).1.tasks 7 =
      some emptyTitleTask ∧
    emptyTitleTask.title = "" :=
  ⟨rfl, rfl, rfl⟩

/-- C7 (amended): a Task's title is a required string field, but neither
create nor update checks non-emptiness, so a reachable state can store a
task with an empty title. -/
theorem C7_amended_empty_title_storable :
    ∃ s, Reachable s ∧ ∃ q ∈ s.tasks, q.2.title = "" := by
  refine ⟨(applyRequest initState (Request.createTask emptyTitleTask)).1,
    Reachable.step _ _ Reachable.init, (7, emptyTitleTask), ?_, rfl⟩
  decide

/-- C8: repository create with an identity already in the store silently
overwrites the stored record — no uniqueness check, no error — and the new
record is what subsequent get and list observe. -/
theorem C8_create_overwrites (r : TaskStore) (task old : Task)
    (h : dictGet r task.id = some old) :
    old ∈ TaskRepository.get_all r ∧
    TaskRepository.create r task = (dictSet r task.id task, task) ∧
    dictGet (TaskRepository.create r task).1 task.id = some task ∧
    task ∈ TaskRepository.get_all (TaskRepository.create r task).1 := by
  refine ⟨List.mem_map_of_mem Prod.snd (dictGet_eq_some_mem _ _ _ h),
    rfl, dictGet_dictSet_self r task.id task, ?_⟩
  exact List.mem_map_of_mem Prod.snd
    (dictGet_eq_some_mem _ _ _ (dictGet_dictSet_self r task.id task))

theorem C8_witness :
    dictGet (TaskRepository.create [(1, sampleTask1)]
      { sampleTask1 with title := "B" }).1 1 =
      some { sampleTask1 with title := "B" } :=
  (C8_create_overwrites [(1, sampleTask1)]
    { sampleTask1 with title := "B" } sampleTask1 rfl).2.2.1

/-- C9 (implicit key-consistency): in every reachable state, every entry of
every repository is keyed by its own record's identity. -/
theorem C9_keys_match_ids (s : AppState) (hs : Reachable s) :
    (∀ q ∈ s.tasks, q.1 = q.2.id) ∧ (∀ q ∈ s.projects, q.1 = q.2.id) ∧
      (∀ q ∈ s.users, q.1 = q.2.id) := by
  obtain ⟨htask, hproj, huser, _⟩ := reachable_inv s hs
  exact ⟨htask.1, hproj.1, huser.1⟩

theorem C9_witness :
    (∀ q ∈ sampleState.tasks, q.1 = q.2.id) ∧
      (∀ q ∈ sampleState.projects, q.1 = q.2.id) ∧
      (∀ q ∈ sampleState.users, q.1 = q.2.id) :=
  C9_keys_match_ids sampleState sampleState_reachable

/-- C10 (implicit cascade-delete safety): when deleting a project that
exists in a reachable state, the per-task delete inside the cascade loop
never hits its not-found error branch — the loop returns ok, and so does
the whole delete_project. -/
theorem C10_cascade_never_raises (s : AppState) (project_id : UUID)
    (hs : Reachable s) (hp : (dictGet s.projects project_id).isSome = true) :
    (cascadeDelete s.tasks
        (TaskRepository.get_by_project s.tasks project_id)).2 = .ok () ∧
    (delete_project s project_id).2 = .ok () := by
  obtain ⟨htask, hproj, huser, horph⟩ := reachable_inv s hs
  obtain ⟨P, hP⟩ := Option.isSome_iff_exists.mp hp
  constructor
  · unfold TaskRepository.get_by_project
    rw [cascadeDelete_filter s.tasks
      (fun task => task.project_id == some project_id) htask.1 htask.2]
  · rw [delete_project_spec s project_id P htask.1 htask.2 hP]

theorem C10_witness :
    (delete_project sampleState 10).2 = .ok () :=
  (C10_cascade_never_raises sampleState 10 sampleState_reachable rfl).2

end Oop
